import Mathlib

/-!
Verification development for the web-graph repository.

This file gives a shallow embedding, in Lean 4, of the core logic of the
repository: the text/JSON graph parser (`src/lib/graph-parser.ts`), the
persistence export/import pair and drag commit of the D3 canvas
(`src/unnamed/part_000`), and the viewport zoom, color assignment, node
sizing, drag state machine and edge-geometry trimming of the 2D canvases
(`src/components/graph-view.tsx`, `src/components/simple-drag-graph.tsx`).

Modelling conventions:
* JavaScript numbers are modelled as exact rationals (`ℚ`); the one use of
  `Math.sqrt` (edge-geometry trimming) is modelled over `ℝ` with
  `Real.sqrt`.  NaN-producing coercions are outside the model and are noted
  where the corresponding source branch is unreachable for the properties
  proved here.
* JSON values are a small inductive `Json`; `JSON.stringify`/`JSON.parse`
  on well-formed data are modelled as the identity on the `Json` tree, and
  the classification that `JSON.parse` induces on a raw properties string
  (blank / invalid with message / valid with entries) is the inductive
  `PropsInput`.
* JavaScript `Map` and plain objects are association lists preserving
  insertion order, as the runtime guarantees.
-/

/-- A JSON value.  `num` carries an exact rational (JS numbers are floats;
the claims proved here involve no rounding). -/
inductive Json where
  | null : Json
  | bool : Bool → Json
  | num : ℚ → Json
  | str : String → Json
  | arr : List Json → Json
  | obj : List (String × Json) → Json


namespace Json

/-- Key lookup in a JSON object representation (first binding wins, as in a
JS object literal built by insertion). -/
def lookupKey (kvs : List (String × Json)) (k : String) : Option Json :=
  match kvs with
  | [] => none
  | (k', v) :: rest => if k' = k then some v else lookupKey rest k

/-- Property access `j[k]` on a JSON value: defined for objects, `none`
(undefined) otherwise.  (Array index access is not used by the code paths
modelled here.) -/
def getField (j : Json) (k : String) : Option Json :=
  match j with
  | .obj kvs => lookupKey kvs k
  | _ => none

/-- JS truthiness of a JSON value. -/
def truthy : Json → Bool
  | .null => false
  | .bool b => b
  | .num q => q ≠ 0
  | .str s => s ≠ ""
  | .arr _ => true
  | .obj _ => true

/-- `Array.isArray`. -/
def isArr : Json → Bool
  | .arr _ => true
  | _ => false

end Json

namespace GraphParser

/-- The parser's `Node` record: `{ id, name, properties? }`.  `name` is a
JSON value because the property pass assigns `node.name = nodeProps.name`
whatever type that value has; node creation sets it to the id string. -/
structure PNode where
  id : String
  name : Json
  properties : Option Json

/-- The parser's `Link` record: `{ source, target, color }` where
`color: color || undefined` (the regex guarantees a matched color is a
non-empty string, so `||` never demotes a match). -/
structure PLink where
  source : String
  target : String
  color : Option String

/-- The parser's return value `{ nodes, links }` with nodes in Map
insertion order. -/
structure GraphData where
  nodes : List PNode
  links : List PLink

/-- Classification that `JSON.parse` induces on the raw `propertiesText`:
blank (`propertiesText.trim()` falsy, pass skipped), invalid JSON (parse
throws with a message), or valid, carrying `Object.entries` of the parsed
value.  `JSON.parse` itself is an external primitive; this inductive is its
observable outcome. -/
inductive PropsInput where
  | blank : PropsInput
  | invalid : String → PropsInput
  | valid : List (String × Json) → PropsInput

/-- A whitespace character, as matched by the JS `\s` class (the ASCII
cases; the token text comes from user input split on `,;\n`). -/
def wsChar (c : Char) : Bool :=
  c = ' ' || c = '\t' || c = '\n' || c = '\r' || c = '\x0b' || c = '\x0c'

/-- A character admitted by the first capture group `[^-=>\s]+`. -/
def g1Char (c : Char) : Bool :=
  !(c = '-' || c = '=' || c = '>' || wsChar c)

/-- A character admitted by the second capture group `[^-=>\s[]+`. -/
def g2Char (c : Char) : Bool :=
  !(c = '-' || c = '=' || c = '>' || c = '[' || wsChar c)

/-- The em dash accepted by the arrow alternation. -/
def emDash : Char := Char.ofNat 0x2014

/-- The en dash accepted by the arrow alternation. -/
def enDash : Char := Char.ofNat 0x2013

/-- Match the alternation `(?:->|=>|—|–|-)` at the head of `cs`, returning
the remainder.  The regex tries the alternatives in this order; committing
to the first one that fits is faithful because no later alternative can
lead to an overall match once an earlier one does and the continuation
fails: after a bare `-` taken where `->` also fits, the remainder starts
with `>`, which neither `\s*` nor `[^-=>\s[]+` accepts. -/
def arrowSplit (cs : List Char) : Option (List Char) :=
  match cs with
  | '-' :: '>' :: rest => some rest
  | '=' :: '>' :: rest => some rest
  | c :: rest =>
      if c = emDash || c = enDash || c = '-' then some rest else none
  | [] => none

/-- After a candidate first group, match `\s*(?:->|=>|—|–|-)\s*` then
`([^-=>\s[]+)` then the optional `(?:\[([^\]]+)\])?`, returning the target
id and optional color.  `\s*` is taken greedily without backtracking:
every arrow alternative starts with a non-whitespace character, so a
shorter `\s*` leaves a whitespace character where the arrow must start.
The second group is taken greedily; nothing follows the optional color
group, so its failure never forces backtracking into the group. -/
def tryAfterG1 (rest : List Char) : Option (String × Option String) :=
  match arrowSplit (rest.dropWhile wsChar) with
  | none => none
  | some rest3 =>
      let rest4 := rest3.dropWhile wsChar
      let g2 := rest4.takeWhile g2Char
      if g2.isEmpty then none
      else
        let rest5 := rest4.drop g2.length
        let color :=
          match rest5 with
          | '[' :: tl =>
              let inner := tl.takeWhile (fun c => !(c = ']'))
              if inner.isEmpty then none
              else
                match tl.drop inner.length with
                | ']' :: _ => some (String.mk inner)
                | _ => none
          | _ => none
        some (String.mk g2, color)

/-- Backtracking over the length of the greedy first group `[^-=>\s]+`:
`g1rev` is the (reversed) current candidate, `rest` the remainder; on
failure of the continuation the group gives one character back.  Longest
candidate is tried first, as the regex engine does. -/
def shrinkG1 : List Char → List Char → Option (String × String × Option String)
  | [], _ => none
  | c :: g1rev, rest =>
      match tryAfterG1 rest with
      | some (t, col) => some (String.mk (c :: g1rev).reverse, t, col)
      | none => shrinkG1 g1rev (c :: rest)

/-- Match the whole pattern
`([^-=>\s]+)\s*(?:->|=>|—|–|-)\s*([^-=>\s[]+)(?:\[([^\]]+)\])?`
anchored at the start of `cs`. -/
def matchAt (cs : List Char) : Option (String × String × Option String) :=
  let g1 := cs.takeWhile g1Char
  shrinkG1 g1.reverse (cs.drop g1.length)

/-- `String.prototype.match` without the global flag: the leftmost position
at which the pattern matches, scanning start positions left to right. -/
def firstMatch : List Char → Option (String × String × Option String)
  | [] => none
  | c :: rest =>
      match matchAt (c :: rest) with
      | some r => some r
      | none => firstMatch rest

/-- A separator of the split `connectionsText.split(/[,;\n]/)`. -/
def sepChar (c : Char) : Bool :=
  c = ',' || c = ';' || c = '\n'

/-- `String.prototype.split` on a character class: split into the (possibly
empty) runs between separator characters. -/
def splitChars (p : Char → Bool) : List Char → List (List Char)
  | [] => [[]]
  | c :: rest =>
      match splitChars p rest with
      | [] => [[]]
      | g :: gs => if p c then [] :: g :: gs else (c :: g) :: gs

/-- `String.prototype.trim`: strip leading and trailing whitespace. -/
def trimChars (cs : List Char) : List Char :=
  ((cs.dropWhile wsChar).reverse.dropWhile wsChar).reverse

/-- The connection tokens: `connectionsText.split(/[,;\n]/)`, each
`.trim()`ed, empty strings dropped (`.filter(Boolean)`), the whole pass
skipped when the input trims to blank. -/
def connTokens (connectionsText : String) : List String :=
  if trimChars connectionsText.toList = [] then []
  else
    (((splitChars sepChar connectionsText.toList).map trimChars).filter
      fun t => t ≠ []).map String.mk

/-- `nodes.has(id)` on the insertion-ordered node list. -/
def hasId (ns : List PNode) (id : String) : Bool :=
  ns.any fun n => n.id = id

/-- `if (!nodes.has(id)) nodes.set(id, { id, name: id })`. -/
def insertIfAbsent (ns : List PNode) (id : String) : List PNode :=
  if hasId ns id then ns else ns ++ [⟨id, Json.str id, none⟩]

/-- One iteration of the connection loop on a token: on a regex match, add
missing endpoint nodes and push the link; otherwise (`console.warn`) leave
the accumulator unchanged. -/
def connStep (acc : List PNode × List PLink) (tok : String) :
    List PNode × List PLink :=
  match firstMatch tok.toList with
  | none => acc
  | some (s, t, col) =>
      (insertIfAbsent (insertIfAbsent acc.1 s) t, acc.2 ++ [⟨s, t, col⟩])

/-- The non-fatal diagnostics of the connection pass: the tokens
`console.warn` reports because the regex did not match. -/
def connWarnings (connectionsText : String) : List String :=
  (connTokens connectionsText).filter fun t => firstMatch t.toList = none

/-- One iteration of the property loop on an `Object.entries` pair: if the
node exists, replace its `properties` and, when the bag is an object with a
`name` key (`nodeProps && typeof nodeProps === "object" && "name" in
nodeProps`), overwrite `name`; otherwise create the node. -/
def propStep (ns : List PNode) (e : String × Json) : List PNode :=
  if hasId ns e.1 then
    ns.map fun n =>
      if n.id = e.1 then
        { n with
          properties := some e.2,
          name :=
            match e.2 with
            | .obj kvs =>
                match Json.lookupKey kvs ("name") with
                | some v => v
                | none => n.name
            | _ => n.name }
      else n
  else ns ++ [⟨e.1, Json.str e.1, some e.2⟩]

/-- `parseGraphData` of `src/lib/graph-parser.ts`: the connection pass over
the tokens, then the property pass; an invalid properties JSON throws
`Failed to parse node properties: <message>`, producing no document. -/
def parseGraphData (connectionsText : String) (props : PropsInput) :
    Except String GraphData :=
  let cp := (connTokens connectionsText).foldl connStep ([], [])
  match props with
  | .invalid msg =>
      .error ("Failed to parse node properties: " ++ msg)
  | .blank => .ok ⟨cp.1, cp.2⟩
  | .valid entries => .ok ⟨entries.foldl propStep cp.1, cp.2⟩

/-- The ids of a node list, in order. -/
def idsOf (ns : List PNode) : List String :=
  ns.map fun n => n.id

/-- The well-formedness invariant carried through both parser passes. -/
def WF (ns : List PNode) (ls : List PLink) : Prop :=
  (idsOf ns).Nodup ∧ ∀ l ∈ ls, l.source ∈ idsOf ns ∧ l.target ∈ idsOf ns

end GraphParser

namespace D3Graph

/-- `NodeData` of the D3 canvas: id, label, optional property bag, optional
position (`x`,`y`) and pinned position (`fx`,`fy`), optional color
override. -/
structure NodeData where
  id : String
  label : String
  properties : Option Json
  x : Option ℚ
  y : Option ℚ
  fx : Option ℚ
  fy : Option ℚ
  color : Option String

/-- `LinkData`: `{ from, to }`.  The field `from` is a reserved word in
Lean, hence `fromId`/`toId`. -/
structure LinkData where
  fromId : String
  toId : String

/-- The document state the import/export pair reads and writes:
`nodeObjectsRef.current`, the `edges` prop, and `customGroupColors`. -/
structure DocState where
  nodes : List NodeData
  edges : List LinkData
  groupColors : List (String × String)

/-- A field of a JS object literal that `JSON.stringify` keeps only when
the value is not `undefined`. -/
def optField (k : String) (v : Option Json) : List (String × Json) :=
  match v with
  | none => []
  | some j => [(k, j)]

/-- The JSON object `JSON.stringify` produces for a `NodeData` (present
fields only, declaration order). -/
def encodeNode (n : NodeData) : Json :=
  .obj ([(("id"), Json.str n.id), (("label"), Json.str n.label)]
    ++ optField ("properties") n.properties
    ++ optField ("x") (n.x.map Json.num)
    ++ optField ("y") (n.y.map Json.num)
    ++ optField ("fx") (n.fx.map Json.num)
    ++ optField ("fy") (n.fy.map Json.num)
    ++ optField ("color") (n.color.map Json.str))

/-- Read a field as a string, as the component's accesses do. -/
def asStr : Option Json → Option String
  | some (.str s) => some s
  | _ => none

/-- Read a field as a number, as the component's accesses do. -/
def asNum : Option Json → Option ℚ
  | some (.num q) => some q
  | _ => none

/-- The `NodeData` view of a parsed JSON node object.  `JSON.parse`
performs no per-field validation (`as GraphState` is a cast); this
function records the reading the rest of the component performs on each
field of the parsed object. -/
def decodeNode (j : Json) : NodeData :=
  { id := (asStr (j.getField ("id"))).getD ""
  , label := (asStr (j.getField ("label"))).getD ""
  , properties := j.getField ("properties")
  , x := asNum (j.getField ("x"))
  , y := asNum (j.getField ("y"))
  , fx := asNum (j.getField ("fx"))
  , fy := asNum (j.getField ("fy"))
  , color := asStr (j.getField ("color")) }

/-- The JSON object for a `LinkData`. -/
def encodeLink (l : LinkData) : Json :=
  .obj [(("from"), Json.str l.fromId), (("to"), Json.str l.toId)]

/-- The `LinkData` view of a parsed JSON link object. -/
def decodeLink (j : Json) : LinkData :=
  { fromId := (asStr (j.getField ("from"))).getD ""
  , toId := (asStr (j.getField ("to"))).getD "" }

/-- The `groupColors` record as read back from parsed JSON: its entries
are consumed as string-to-string bindings. -/
def decodeColors : Json → List (String × String)
  | .obj kvs =>
      kvs.filterMap fun p =>
        match p.2 with
        | .str s => some (p.1, s)
        | _ => none
  | _ => []

/-- The `GraphState` object `exportGraph` serializes:
`{ nodes, edges, groupColors, version: "1.0" }`. -/
def encodeState (d : DocState) : Json :=
  .obj [(("nodes"), Json.arr (d.nodes.map encodeNode)),
        (("edges"), Json.arr (d.edges.map encodeLink)),
        (("groupColors"), Json.obj (d.groupColors.map fun p => (p.1, Json.str p.2))),
        (("version"), Json.str ("1.0"))]

/-- `exportGraph`: nothing is exported when the node list is empty
(`if (!nodeObjectsRef.current.length) return`); otherwise the serialized
`GraphState`.  `JSON.stringify` followed by `JSON.parse` of the written
file is the identity on the `Json` tree. -/
def exportGraph (d : DocState) : Option Json :=
  if d.nodes.isEmpty then none else some (encodeState d)

/-- `Array.isArray(x)` on a possibly-missing field. -/
def optIsArr : Option Json → Bool
  | some v => v.isArr
  | none => false

/-- JS truthiness of a possibly-missing field (`undefined` is falsy). -/
def optTruthy : Option Json → Bool
  | some v => v.truthy
  | none => false

/-- The elements of an array field. -/
def arrElems : Option Json → List Json
  | some (.arr xs) => xs
  | _ => []

/-- `importGraph` applied to the parsed file content: validate that
`nodes` and `edges` are present and array-typed
(`!graphState.nodes || !Array.isArray(graphState.nodes) || ...`); on
failure alert `Invalid graph file format` and leave the document untouched;
on success adopt `groupColors` when truthy, then the nodes and edges. -/
def importGraph (j : Json) (cur : DocState) : DocState × Option String :=
  let nodesF := j.getField ("nodes")
  let edgesF := j.getField ("edges")
  if !optTruthy nodesF || !optIsArr nodesF
      || !optTruthy edgesF || !optIsArr edgesF then
    (cur, some ("Invalid graph file format"))
  else
    let gcs :=
      match j.getField ("groupColors") with
      | some gj => if gj.truthy then decodeColors gj else cur.groupColors
      | none => cur.groupColors
    ({ nodes := (arrElems nodesF).map decodeNode,
       edges := (arrElems edgesF).map decodeLink,
       groupColors := gcs }, none)

end D3Graph

namespace GraphView

/-- The viewport: scale (`zoom`) and pan offset. -/
structure Viewport where
  zoom : ℚ
  pan : ℚ × ℚ

/-- `const delta = -e.deltaY; const zoomFactor = delta > 0 ? 1.1 : 0.9`. -/
def zoomFactor (deltaY : ℚ) : ℚ :=
  if -deltaY > 0 then 11/10 else 9/10

/-- `handleWheel`: clamp the new scale to `[0.1, 5]` and re-derive the pan
so the graph point under the mouse keeps its screen position.  `mouse` is
the pointer position relative to the container. -/
def handleWheel (mouse : ℚ × ℚ) (deltaY : ℚ) (s : Viewport) : Viewport :=
  let newZoom := max (1/10) (min 5 (s.zoom * zoomFactor deltaY))
  let mouseGraphX := (mouse.1 - s.pan.1) / s.zoom
  let mouseGraphY := (mouse.2 - s.pan.2) / s.zoom
  { zoom := newZoom,
    pan := (mouse.1 - mouseGraphX * newZoom, mouse.2 - mouseGraphY * newZoom) }

/-- The 2D canvases' `Node` record (`graph-view.tsx` and
`simple-drag-graph.tsx` use the same shape): id, label, optional position,
optional color override, optional property bag. -/
structure VNode where
  id : String
  label : String
  x : Option ℚ
  y : Option ℚ
  color : Option String
  properties : Option (List (String × Json))

/-- The canvases' `Edge` record `{ from, to, color? }` (`from`/`to` are
renamed because `from` is reserved in Lean). -/
structure VEdge where
  fromId : String
  toId : String
  color : Option String

/-- Lookup in a node's property bag. -/
def propLookup (n : VNode) (k : String) : Option Json :=
  match n.properties with
  | some kvs => Json.lookupKey kvs k
  | none => none

/-- `node.properties?.group || "default"`.  Group values are strings in
this code base; a missing bag, missing key or empty string (falsy) yields
the default group.  (Non-string group values, which JS would coerce at the
use site, are not modelled.) -/
def groupKey (n : VNode) : String :=
  match propLookup n ("group") with
  | some (.str s) => if s = "" then ("default") else s
  | _ => ("default")

/-- `Array.from(new Set(nodes.map(...)))`: the distinct group keys in
first-encounter order. -/
def groupsOf (nodes : List VNode) : List String :=
  nodes.foldl (fun acc n => if groupKey n ∈ acc then acc else acc ++ [groupKey n]) []

/-- The fixed 10-entry palette shared by both canvases. -/
def defaultColors : List String :=
  [("#4285F4"), ("#EA4335"), ("#FBBC05"), ("#34A853"), ("#8E24AA"),
   ("#00ACC1"), ("#FB8C00"), ("#607D8B"), ("#E91E63"), ("#9E9E9E")]

/-- Lookup in a string-to-string record (`customGroupColors[group]`). -/
def lookupStr (m : List (String × String)) (k : String) : Option String :=
  match m with
  | [] => none
  | (k', v) :: rest => if k' = k then some v else lookupStr rest k

/-- `a || b` on a possibly-missing string: the default wins on `undefined`
and on the falsy empty string. -/
def orDefault (c : Option String) (d : String) : String :=
  match c with
  | some s => if s = "" then d else s
  | none => d

/-- Code-unit comparison of strings, the default JS sort comparator:
lexicographic on the scalar values. -/
def charListLe : List Char → List Char → Bool
  | [], _ => true
  | _ :: _, [] => false
  | a :: as, b :: bs =>
      if a.val < b.val then true
      else if b.val < a.val then false
      else charListLe as bs

/-- Comparison of strings by code units. -/
def strLe (a b : String) : Bool :=
  charListLe a.toList b.toList

/-- Insert into a lexicographically sorted list. -/
def insertSorted (s : String) : List String → List String
  | [] => [s]
  | t :: ts => if strLe s t then s :: t :: ts else t :: insertSorted s ts

/-- `[...groups].sort()`: the default JS sort compares strings by code
units; on the distinct group keys it produces the unique sorted
arrangement, here computed by insertion sort. -/
def sortStrings (l : List String) : List String :=
  l.foldr insertSorted []

/-- `colorScale` of `graph-view.tsx`: sort the groups, then assign each
group its custom color if any, else the palette entry at the sorted index
modulo the palette length. -/
def graphViewColorMap (nodes : List VNode) (custom : List (String × String)) :
    List (String × String) :=
  (sortStrings (groupsOf nodes)).enum.map fun p =>
    (p.2, orDefault (lookupStr custom p.2)
      (defaultColors.getD (p.1 % defaultColors.length) ("")))

/-- `colorScale` of `simple-drag-graph.tsx`: identical, except the groups
are enumerated in first-encounter order, without sorting. -/
def simpleDragColorMap (nodes : List VNode) (custom : List (String × String)) :
    List (String × String) :=
  (groupsOf nodes).enum.map fun p =>
    (p.2, orDefault (lookupStr custom p.2)
      (defaultColors.getD (p.1 % defaultColors.length) ("")))

/-- The node sizing mode selected externally. -/
inductive SizingMode where
  | uniform
  | incoming
  | outgoing
  | provided
  | property
deriving DecidableEq

/-- `Number(v)` for the JSON values exercised by the properties proved
here (numbers; booleans and null coerce to 0/1).  String parsing and the
NaN results of other coercions are not modelled — the branches using this
function are unreachable in the incoming/outgoing sizing modes these
claims are about. -/
def jsNumber : Json → ℚ
  | .num q => q
  | .bool true => 1
  | _ => 0

/-- Truthiness of the optional sizing-property name. -/
def strOptTruthy : Option String → Bool
  | some p => p ≠ ""
  | none => false

/-- `edges.filter((edge) => edge.to === node.id).length`. -/
def inDeg (edges : List VEdge) (id : String) : ℕ :=
  (edges.filter fun e => e.toId = id).length

/-- `edges.filter((edge) => edge.from === node.id).length`. -/
def outDeg (edges : List VEdge) (id : String) : ℕ :=
  (edges.filter fun e => e.fromId = id).length

/-- `Math.max(1, ...nodes.map((n) => edges.filter((e) => e.to === n.id).length))`. -/
def maxInDeg (nodes : List VNode) (edges : List VEdge) : ℕ :=
  (nodes.map fun m => inDeg edges m.id).foldl max 1

/-- `Math.max(1, ...nodes.map((n) => edges.filter((e) => e.from === n.id).length))`. -/
def maxOutDeg (nodes : List VNode) (edges : List VEdge) : ℕ :=
  (nodes.map fun m => outDeg edges m.id).foldl max 1

/-- The numeric values of a property across the nodes that define it
(the `!isNaN` filter on `Number(v)` is represented by `jsNumber`). -/
def propertyValues (p : String) (nodes : List VNode) : List ℚ :=
  (nodes.filterMap fun m => propLookup m p).map jsNumber

/-- `getNodeSize` of `graph-view.tsx`: uniform 8; `provided` clamps
`properties.size` into `[4, 20]`; `property` min-max normalizes the chosen
property into `[4, 20]` with fallback 8; `incoming`/`outgoing` scale the
degree against the graph maximum into `[5, 20]`; default 8. -/
def getNodeSize (mode : SizingMode) (sizingProp : Option String)
    (nodes : List VNode) (edges : List VEdge) (node : VNode) : ℚ :=
  if mode = SizingMode.uniform then 8
  else if mode = SizingMode.provided ∧ (propLookup node ("size")).isSome then
    max 4 (min 20 (jsNumber ((propLookup node ("size")).getD Json.null)))
  else if mode = SizingMode.property ∧ strOptTruthy sizingProp
      ∧ (propLookup node (sizingProp.getD (""))).isSome then
    match propertyValues (sizingProp.getD ("")) nodes with
    | [] => 8
    | v :: vs =>
        let mn := vs.foldl min v
        let mx := vs.foldl max v
        if mn = mx then 8
        else
          4 + ((jsNumber ((propLookup node (sizingProp.getD (""))).getD Json.null) - mn)
            / (mx - mn)) * 16
  else if mode = SizingMode.incoming then
    5 + ((inDeg edges node.id : ℚ) / (maxInDeg nodes edges : ℚ)) * 15
  else if mode = SizingMode.outgoing then
    5 + ((outDeg edges node.id : ℚ) / (maxOutDeg nodes edges : ℚ)) * 15
  else 8

/-- `getNodeSize` of `simple-drag-graph.tsx`: the same logic without the
`property` branch. -/
def simpleDragGetNodeSize (mode : SizingMode) (nodes : List VNode)
    (edges : List VEdge) (node : VNode) : ℚ :=
  if mode = SizingMode.uniform then 8
  else if mode = SizingMode.provided ∧ (propLookup node ("size")).isSome then
    max 4 (min 20 (jsNumber ((propLookup node ("size")).getD Json.null)))
  else if mode = SizingMode.incoming then
    5 + ((inDeg edges node.id : ℚ) / (maxInDeg nodes edges : ℚ)) * 15
  else if mode = SizingMode.outgoing then
    5 + ((outDeg edges node.id : ℚ) / (maxOutDeg nodes edges : ℚ)) * 15
  else 8

/-- `calculateEdgeEndpoints` of `graph-view.tsx`: reject missing or
non-numeric endpoint coordinates (coordinates are rationals in this model,
so the `isNaN` guards are the `Option` match) and coincident centers
(`distance === 0`), otherwise trim both ends of the segment by the node
radii along the unit direction.  `Math.sqrt` is the real square root,
hence the statement over `ℝ`. -/
noncomputable def calculateEdgeEndpoints (mode : SizingMode)
    (prop : Option String) (nodes : List VNode) (edges : List VEdge)
    (source target : VNode) : Option ((ℝ × ℝ) × (ℝ × ℝ)) :=
  match source.x, source.y, target.x, target.y with
  | some sx, some sy, some tx, some ty =>
      let sourceSize : ℝ := ((getNodeSize mode prop nodes edges source : ℚ) : ℝ)
      let targetSize : ℝ := ((getNodeSize mode prop nodes edges target : ℚ) : ℝ)
      let dx : ℝ := ((tx : ℚ) : ℝ) - ((sx : ℚ) : ℝ)
      let dy : ℝ := ((ty : ℚ) : ℝ) - ((sy : ℚ) : ℝ)
      let distance : ℝ := Real.sqrt (dx * dx + dy * dy)
      if distance = 0 then none
      else
        let nx := dx / distance
        let ny := dy / distance
        some ((((sx : ℚ) : ℝ) + nx * sourceSize, ((sy : ℚ) : ℝ) + ny * sourceSize),
              (((tx : ℚ) : ℝ) - nx * targetSize, ((ty : ℚ) : ℝ) - ny * targetSize))
  | _, _, _, _ => none

/-- The edge-drawing guard of the render loop: resolve both endpoint
nodes by id (`nodes.find`), skip the edge when either is missing, then
compute the trimmed endpoints and skip when they are `null`. -/
noncomputable def drawEdge (mode : SizingMode) (prop : Option String)
    (nodes : List VNode) (edges : List VEdge) (e : VEdge) :
    Option ((ℝ × ℝ) × (ℝ × ℝ)) :=
  match nodes.find? (fun n => n.id = e.fromId),
      nodes.find? (fun n => n.id = e.toId) with
  | some s, some t => calculateEdgeEndpoints mode prop nodes edges s t
  | _, _ => none

/-- An update notification: the payload `onGraphUpdate(nodes, edges)`
receives. -/
abbrev GVNotif := List VNode × List VEdge

/-- The drag/pan state of `graph-view.tsx`: the document-and-render node
state, the viewport, and the gesture registers (`dragging`, `dragOffset`,
`isPanning`, `panStart`). -/
structure GVState where
  nodes : List VNode
  edges : List VEdge
  zoom : ℚ
  pan : ℚ × ℚ
  dragging : Option String
  dragOffset : ℚ × ℚ
  isPanning : Bool
  panStart : ℚ × ℚ

/-- `handleNodeMouseDown`: entering `DraggingNode` over a node with a
position, capturing the offset from the mouse's world position to the node
center. -/
def handleNodeMouseDown (mouse : ℚ × ℚ) (nodeId : String) (s : GVState) :
    GVState :=
  match s.nodes.find? (fun n => n.id = nodeId) with
  | some n =>
      match n.x, n.y with
      | some nx, some ny =>
          let adjX := (mouse.1 - s.pan.1) / s.zoom
          let adjY := (mouse.2 - s.pan.2) / s.zoom
          { s with dragOffset := (nx - adjX, ny - adjY), dragging := some nodeId }
      | _, _ => s
  | none => s

/-- `handleMouseMove`: while panning, shift the pan by the screen delta;
while dragging, move only the dragged node to the mouse's world position
plus the captured offset.  The second component is the notifications the
event emits: a move never calls `onGraphUpdate`. -/
def handleMouseMoveGV (mouse : ℚ × ℚ) (s : GVState) : GVState × List GVNotif :=
  if s.isPanning then
    ({ s with
        pan := (s.pan.1 + (mouse.1 - s.panStart.1),
                s.pan.2 + (mouse.2 - s.panStart.2)),
        panStart := mouse }, [])
  else
    match s.dragging with
    | some id =>
        let newX := (mouse.1 - s.pan.1) / s.zoom + s.dragOffset.1
        let newY := (mouse.2 - s.pan.2) / s.zoom + s.dragOffset.2
        ({ s with
            nodes := s.nodes.map fun n =>
              if n.id = id then { n with x := some newX, y := some newY } else n },
          [])
    | none => (s, [])

/-- `handleMouseUp`: when a node drag is in progress, emit one
`onGraphUpdate(nodes, updatedEdges)` notification (the `updatedEdges` copy
preserves each edge's fields), then leave both gesture states. -/
def handleMouseUpGV (s : GVState) : GVState × List GVNotif :=
  ({ s with dragging := none, isPanning := false },
    match s.dragging with
    | some _ => [(s.nodes, s.edges)]
    | none => [])

/-- A pointer-move sequence: feed each event through `handleMouseMoveGV`,
collecting every notification emitted along the way. -/
def runMoves : List (ℚ × ℚ) → GVState → GVState × List GVNotif
  | [], s => (s, [])
  | m :: ms, s =>
      let r := handleMouseMoveGV m s
      let rest := runMoves ms r.1
      (rest.1, r.2 ++ rest.2)

end GraphView



namespace GraphParser

theorem hasId_iff_mem (ns : List PNode) (i : String) :
    hasId ns i = true ↔ i ∈ idsOf ns := by
  simp only [hasId, idsOf, List.any_eq_true, List.mem_map, decide_eq_true_eq]

theorem idsOf_insertIfAbsent (ns : List PNode) (i : String) :
    idsOf (insertIfAbsent ns i) =
      if hasId ns i then idsOf ns else idsOf ns ++ [i] := by
  unfold insertIfAbsent
  by_cases h : hasId ns i <;> simp [h, idsOf]

theorem mem_insertIfAbsent_self (ns : List PNode) (i : String) :
    i ∈ idsOf (insertIfAbsent ns i) := by
  rw [idsOf_insertIfAbsent]
  by_cases h : hasId ns i
  · simpa [h] using (hasId_iff_mem ns i).mp h
  · simp [h]

theorem mem_insertIfAbsent_mono (ns : List PNode) (i j : String)
    (h : j ∈ idsOf ns) : j ∈ idsOf (insertIfAbsent ns i) := by
  rw [idsOf_insertIfAbsent]
  by_cases hc : hasId ns i <;> simp [hc, h]

theorem nodup_insertIfAbsent (ns : List PNode) (i : String)
    (h : (idsOf ns).Nodup) : (idsOf (insertIfAbsent ns i)).Nodup := by
  rw [idsOf_insertIfAbsent]
  by_cases hc : hasId ns i
  · simpa [hc]
  · have : ¬ i ∈ idsOf ns := fun hm => hc ((hasId_iff_mem ns i).mpr hm)
    simp [hc, List.nodup_append, h, this]

theorem wf_connStep (ns : List PNode) (ls : List PLink) (tok : String)
    (h : WF ns ls) : WF (connStep (ns, ls) tok).1 (connStep (ns, ls) tok).2 := by
  unfold connStep
  cases hm : firstMatch tok.toList with
  | none => simpa using h
  | some m =>
    obtain ⟨hnd, hlinks⟩ := h
    refine ⟨nodup_insertIfAbsent _ _ (nodup_insertIfAbsent _ _ hnd), ?_⟩
    intro l hl
    simp only [List.mem_append, List.mem_singleton] at hl
    rcases hl with hl | hl
    · obtain ⟨hs, ht⟩ := hlinks l hl
      exact ⟨mem_insertIfAbsent_mono _ _ _ (mem_insertIfAbsent_mono _ _ _ hs),
        mem_insertIfAbsent_mono _ _ _ (mem_insertIfAbsent_mono _ _ _ ht)⟩
    · subst hl
      exact ⟨mem_insertIfAbsent_mono _ _ _ (mem_insertIfAbsent_self _ _),
        mem_insertIfAbsent_self _ _⟩

theorem wf_connFold (toks : List String) (ns : List PNode) (ls : List PLink)
    (h : WF ns ls) :
    WF (toks.foldl connStep (ns, ls)).1 (toks.foldl connStep (ns, ls)).2 := by
  induction toks generalizing ns ls with
  | nil => simpa using h
  | cons t ts ih =>
    have := wf_connStep ns ls t h
    simpa using ih (connStep (ns, ls) t).1 (connStep (ns, ls) t).2 this

theorem idsOf_propStep (ns : List PNode) (e : String × Json) :
    idsOf (propStep ns e) =
      if hasId ns e.1 then idsOf ns else idsOf ns ++ [e.1] := by
  unfold propStep
  by_cases h : hasId ns e.1
  · simp only [h, if_true, idsOf, List.map_map]
    refine List.map_congr_left ?_
    intro n _
    by_cases hn : n.id = e.1 <;> simp [hn]
  · simp [h, idsOf]

theorem wf_propStep (ns : List PNode) (ls : List PLink) (e : String × Json)
    (h : WF ns ls) : WF (propStep ns e) ls := by
  obtain ⟨hnd, hlinks⟩ := h
  constructor
  · rw [idsOf_propStep]
    by_cases hc : hasId ns e.1
    · simpa [hc]
    · have : ¬ e.1 ∈ idsOf ns := fun hm => hc ((hasId_iff_mem ns e.1).mpr hm)
      simp [hc, List.nodup_append, hnd, this]
  · intro l hl
    obtain ⟨hs, ht⟩ := hlinks l hl
    rw [idsOf_propStep]
    by_cases hc : hasId ns e.1 <;> simp [hc, hs, ht]

theorem wf_propFold (es : List (String × Json)) (ns : List PNode)
    (ls : List PLink) (h : WF ns ls) : WF (es.foldl propStep ns) ls := by
  induction es generalizing ns with
  | nil => simpa using h
  | cons e es ih => exact ih (propStep ns e) (wf_propStep ns ls e h)

/-- C4: on a non-blank `propertiesText` that is not valid JSON, the whole
`parseGraphData` call fails with a `ParseError` carrying the underlying
JSON error message, and no document is produced — not even a partial one
from the connection pass. -/
theorem parse_invalid_props_fatal (conn msg : String) :
    parseGraphData conn (PropsInput.invalid msg) =
      Except.error ("Failed to parse node properties: " ++ msg) := rfl

/-- C10: whenever the parser succeeds, the returned document is
well-formed: node ids are pairwise distinct, and every link's source and
target id is present in the returned node list. -/
theorem parse_result_wellformed (conn : String) (props : PropsInput)
    (gd : GraphData) (h : parseGraphData conn props = Except.ok gd) :
    (idsOf gd.nodes).Nodup ∧
      ∀ l ∈ gd.links, l.source ∈ idsOf gd.nodes ∧ l.target ∈ idsOf gd.nodes := by
  have hwf0 : WF [] [] := ⟨List.nodup_nil, by intro l hl; cases hl⟩
  have hconn := wf_connFold (connTokens conn) [] [] hwf0
  unfold parseGraphData at h
  cases props with
  | invalid msg => cases h
  | blank =>
    cases h
    exact hconn
  | valid es =>
    cases h
    exact wf_propFold es _ _ hconn

/-- C10 witness: a concrete parse whose inputs mention the id `A` in two
connection tokens and in the properties JSON, plus a dangling-free link
set. -/
theorem parse_result_wellformed_witness :
    (idsOf
        [⟨("A"), Json.str ("A"), some (Json.obj [(("group"), Json.str ("g"))])⟩,
         ⟨("B"), Json.str ("B"), none⟩, ⟨("C"), Json.str ("C"), some (Json.obj [])⟩]).Nodup ∧
      ∀ l ∈ [(⟨("A"), ("B"), none⟩ : PLink), ⟨("A"), ("B"), none⟩],
        l.source ∈ idsOf
          [⟨("A"), Json.str ("A"), some (Json.obj [(("group"), Json.str ("g"))])⟩,
           ⟨("B"), Json.str ("B"), none⟩, ⟨("C"), Json.str ("C"), some (Json.obj [])⟩] ∧
        l.target ∈ idsOf
          [⟨("A"), Json.str ("A"), some (Json.obj [(("group"), Json.str ("g"))])⟩,
           ⟨("B"), Json.str ("B"), none⟩, ⟨("C"), Json.str ("C"), some (Json.obj [])⟩] :=
  parse_result_wellformed ("A->B, A->B")
    (PropsInput.valid
      [(("A"), Json.obj [(("group"), Json.str ("g"))]), (("C"), Json.obj [])])
    ⟨[⟨("A"), Json.str ("A"), some (Json.obj [(("group"), Json.str ("g"))])⟩,
      ⟨("B"), Json.str ("B"), none⟩, ⟨("C"), Json.str ("C"), some (Json.obj [])⟩],
     [⟨("A"), ("B"), none⟩, ⟨("A"), ("B"), none⟩]⟩ (by rfl)

theorem connStep_none (ns : List PNode) (ls : List PLink) (tok : String)
    (h : firstMatch tok.toList = none) : connStep (ns, ls) tok = (ns, ls) := by
  unfold connStep
  rw [h]

theorem connStep_some (ns : List PNode) (ls : List PLink) (tok : String)
    (s t : String) (col : Option String)
    (h : firstMatch tok.toList = some (s, t, col)) :
    connStep (ns, ls) tok =
      (insertIfAbsent (insertIfAbsent ns s) t, ls ++ [⟨s, t, col⟩]) := by
  unfold connStep
  rw [h]

theorem connFold_links (toks : List String) (ns : List PNode) (ls : List PLink) :
    (toks.foldl connStep (ns, ls)).2 =
      ls ++ ((toks.filterMap fun t => firstMatch t.toList).map
        fun m => (⟨m.1, m.2.1, m.2.2⟩ : PLink)) := by
  induction toks generalizing ns ls with
  | nil => simp
  | cons t ts ih =>
    simp only [List.foldl_cons, List.filterMap_cons]
    cases h : firstMatch t.toList with
    | none => simp [connStep_none ns ls t h, h, ih]
    | some m =>
      obtain ⟨s, tgt, col⟩ := m
      rw [connStep_some ns ls t s tgt col h, ih]
      simp [h]

/-- C5 (amended): connection parsing is per comma/semicolon/newline
separated token (whitespace does not separate tokens); each token is
matched once against the grammar, a non-matching token is skipped with a
non-fatal diagnostic, and parsing continues: the produced links are exactly
the grammar matches of the tokens, in order, and the diagnostics are
exactly the non-matching tokens. -/
theorem conn_tokens_best_effort (conn : String) (props : PropsInput)
    (gd : GraphData) (h : parseGraphData conn props = Except.ok gd) :
    gd.links = ((connTokens conn).filterMap fun t => firstMatch t.toList).map
        (fun m => (⟨m.1, m.2.1, m.2.2⟩ : PLink)) ∧
      connWarnings conn =
        (connTokens conn).filter fun t => firstMatch t.toList = none := by
  refine ⟨?_, rfl⟩
  unfold parseGraphData at h
  have hl := connFold_links (connTokens conn) [] []
  cases props with
  | invalid msg => cases h
  | blank => cases h; simpa using hl
  | valid es => cases h; simpa using hl

/-- C5 witness: a mixed input with one malformed token between two valid
ones; both valid tokens produce links, the malformed one is the sole
diagnostic. -/
theorem conn_tokens_best_effort_witness :
    ([(⟨("A"), ("B"), some ("#ff0000")⟩ : PLink), ⟨("B"), ("C"), none⟩] :
        List PLink) =
      ((connTokens ("A->B[#ff0000], >>bad<<, B->C")).filterMap
        fun t => firstMatch t.toList).map
        (fun m => (⟨m.1, m.2.1, m.2.2⟩ : PLink)) ∧
      connWarnings ("A->B[#ff0000], >>bad<<, B->C") =
        (connTokens ("A->B[#ff0000], >>bad<<, B->C")).filter
          fun t => firstMatch t.toList = none :=
  conn_tokens_best_effort ("A->B[#ff0000], >>bad<<, B->C") PropsInput.blank
    ⟨[⟨("A"), Json.str ("A"), none⟩, ⟨("B"), Json.str ("B"), none⟩,
      ⟨("C"), Json.str ("C"), none⟩],
     [⟨("A"), ("B"), some ("#ff0000")⟩, ⟨("B"), ("C"), none⟩]⟩ (by rfl)

/-- C5 counterexample: two grammatical connections separated only by a
space form a single token (the split is on `,;\n` alone, and the regex
returns only its first match), so only one edge is produced — the claim's
"two connections separated only by a space both produce edges" is false
on the code. -/
theorem conn_space_separated_single_edge :
    parseGraphData ("A->B C->D") PropsInput.blank =
      Except.ok ⟨[⟨("A"), Json.str ("A"), none⟩, ⟨("B"), Json.str ("B"), none⟩],
        [⟨("A"), ("B"), none⟩]⟩ ∧
      (parseGraphData ("A->B C->D") PropsInput.blank).map
          (fun gd => gd.links.length) = Except.ok 1 :=
  ⟨rfl, rfl⟩

end GraphParser

namespace D3Graph

theorem lookupKey_append (xs ys : List (String × Json)) (k : String) :
    Json.lookupKey (xs ++ ys) k =
      match Json.lookupKey xs k with
      | some v => some v
      | none => Json.lookupKey ys k := by
  induction xs with
  | nil => simp [Json.lookupKey]
  | cons p ps ih =>
    by_cases h : p.1 = k <;> simp [Json.lookupKey, h, ih]

theorem decodeNode_encodeNode (n : NodeData) : decodeNode (encodeNode n) = n := by
  cases n with
  | mk id label properties x y fx fy color =>
    cases properties <;> cases x <;> cases y <;> cases fx <;> cases fy <;>
      cases color <;>
      simp [decodeNode, encodeNode, Json.getField, optField, lookupKey_append,
        Json.lookupKey, asStr, asNum]

theorem map_decode_encode_nodes (ns : List NodeData) :
    List.map (decodeNode ∘ encodeNode) ns = ns := by
  induction ns with
  | nil => rfl
  | cons n ns ih => simp [decodeNode_encodeNode, ih]

theorem decodeLink_encodeLink (l : LinkData) : decodeLink (encodeLink l) = l := by
  cases l
  simp [decodeLink, encodeLink, Json.getField, Json.lookupKey, asStr]

theorem map_decode_encode_links (ls : List LinkData) :
    List.map (decodeLink ∘ encodeLink) ls = ls := by
  induction ls with
  | nil => rfl
  | cons l ls ih => simp [decodeLink_encodeLink, ih]

theorem decodeColors_encode (gcs : List (String × String)) :
    decodeColors (Json.obj (gcs.map fun p => (p.1, Json.str p.2))) = gcs := by
  induction gcs with
  | nil => rfl
  | cons p ps ih =>
    simp only [decodeColors, List.map_cons, List.filterMap_cons] at *
    simpa using ih

/-- C1: importing the JSON produced by exporting a document yields that
document back: same node ids, labels, properties, positions, colors, and
edges, and the same group colors, whatever the current document was.  (The
export guard only writes a file for a non-empty node list; the hypothesis
is that a file was produced.) -/
theorem import_export_roundtrip (doc cur : DocState) (j : Json)
    (h : exportGraph doc = some j) :
    importGraph j cur = (doc, none) := by
  unfold exportGraph at h
  by_cases he : doc.nodes.isEmpty
  · simp [he] at h
  · simp only [he] at h
    rw [if_neg (by simp)] at h
    replace h := Option.some.inj h
    subst h
    unfold importGraph
    simp only [encodeState, Json.getField, Json.lookupKey, if_true, if_false]
    simp [optTruthy, optIsArr, Json.truthy, Json.isArr, arrElems,
      List.map_map, Function.comp, decodeNode_encodeNode,
      decodeLink_encodeLink, decodeColors_encode,
      map_decode_encode_nodes, map_decode_encode_links]

/-- C1 witness: a concrete one-node document with a position, a property
bag, a color override, an edge and a custom group color survives the
round trip against an unrelated current document. -/
theorem import_export_roundtrip_witness :
    importGraph
        (encodeState
          ⟨[⟨("A"), ("Node A"), some (Json.obj [(("group"), Json.str ("g1"))]),
             some 10, some 20, some 10, some 20, some ("#123456")⟩],
           [⟨("A"), ("A")⟩], [(("g1"), ("#abcdef"))]⟩)
        ⟨[], [], []⟩ =
      (⟨[⟨("A"), ("Node A"), some (Json.obj [(("group"), Json.str ("g1"))]),
          some 10, some 20, some 10, some 20, some ("#123456")⟩],
        [⟨("A"), ("A")⟩], [(("g1"), ("#abcdef"))]⟩, none) :=
  import_export_roundtrip
    ⟨[⟨("A"), ("Node A"), some (Json.obj [(("group"), Json.str ("g1"))]),
       some 10, some 20, some 10, some 20, some ("#123456")⟩],
      [⟨("A"), ("A")⟩], [(("g1"), ("#abcdef"))]⟩
    ⟨[], [], []⟩ _ rfl

/-- C7: an imported JSON value whose `nodes` or `edges` field is missing
or not array-typed is rejected with the import validation error, and the
current document — nodes, edges and group colors alike — is returned
entirely unchanged. -/
theorem import_invalid_rejected (j : Json) (cur : DocState)
    (h : optIsArr (j.getField ("nodes")) = false ∨
      optIsArr (j.getField ("edges")) = false) :
    importGraph j cur = (cur, some ("Invalid graph file format")) := by
  unfold importGraph
  rcases h with h | h <;> simp [h]

/-- C7 witness: importing an object with `nodes` present but non-array and
`edges` absent leaves a concrete current document untouched. -/
theorem import_invalid_rejected_witness :
    importGraph (Json.obj [(("nodes"), Json.num 3)])
        ⟨[⟨("K"), ("K"), none, none, none, none, none, none⟩], [], []⟩ =
      (⟨[⟨("K"), ("K"), none, none, none, none, none, none⟩], [], []⟩,
        some ("Invalid graph file format")) :=
  import_invalid_rejected (Json.obj [(("nodes"), Json.num 3)])
    ⟨[⟨("K"), ("K"), none, none, none, none, none, none⟩], [], []⟩
    (Or.inl rfl)

end D3Graph

namespace GraphView

/-- C2: for a viewport with scale in `[0.1, 5]`, a wheel gesture at screen
point `P` yields scale `clamp(k * f, 0.1, 5)` and pan
`P - ((P - pan)/k) * k'`, and the world coordinate mapped to `P` is
unchanged (exactly, in the rational model of the float computation). -/
theorem wheel_zoom_at_point (s : Viewport) (mouse : ℚ × ℚ) (deltaY : ℚ)
    (_h1 : 1/10 ≤ s.zoom) (_h2 : s.zoom ≤ 5) :
    (handleWheel mouse deltaY s).zoom
        = max (1/10) (min 5 (s.zoom * zoomFactor deltaY)) ∧
      (handleWheel mouse deltaY s).pan.1
        = mouse.1 - ((mouse.1 - s.pan.1) / s.zoom) * (handleWheel mouse deltaY s).zoom ∧
      (handleWheel mouse deltaY s).pan.2
        = mouse.2 - ((mouse.2 - s.pan.2) / s.zoom) * (handleWheel mouse deltaY s).zoom ∧
      (mouse.1 - (handleWheel mouse deltaY s).pan.1) / (handleWheel mouse deltaY s).zoom
        = (mouse.1 - s.pan.1) / s.zoom ∧
      (mouse.2 - (handleWheel mouse deltaY s).pan.2) / (handleWheel mouse deltaY s).zoom
        = (mouse.2 - s.pan.2) / s.zoom := by
  have hk : (0 : ℚ) < max (1/10) (min 5 (s.zoom * zoomFactor deltaY)) :=
    lt_of_lt_of_le (by norm_num) (le_max_left _ _)
  refine ⟨rfl, rfl, rfl, ?_, ?_⟩ <;>
  · show (_ - (_ - _ / s.zoom * _)) / _ = _
    rw [sub_sub_cancel, mul_div_assoc,
      show (handleWheel mouse deltaY s).zoom
        = max (1/10) (min 5 (s.zoom * zoomFactor deltaY)) from rfl,
      div_self hk.ne', mul_one]

/-- C2 witness: zooming in (`deltaY = -1`, factor 1.1) at screen point
`(50, 40)` from scale 1, pan `(0, 0)`. -/
theorem wheel_zoom_at_point_witness :
    (handleWheel (50, 40) (-1) ⟨1, (0, 0)⟩).zoom
        = max (1/10) (min 5 (1 * zoomFactor (-1))) ∧
      (handleWheel (50, 40) (-1) ⟨1, (0, 0)⟩).pan.1
        = 50 - ((50 - 0) / 1) * (handleWheel (50, 40) (-1) ⟨1, (0, 0)⟩).zoom ∧
      (handleWheel (50, 40) (-1) ⟨1, (0, 0)⟩).pan.2
        = 40 - ((40 - 0) / 1) * (handleWheel (50, 40) (-1) ⟨1, (0, 0)⟩).zoom ∧
      (50 - (handleWheel (50, 40) (-1) ⟨1, (0, 0)⟩).pan.1)
          / (handleWheel (50, 40) (-1) ⟨1, (0, 0)⟩).zoom = (50 - 0) / 1 ∧
      (40 - (handleWheel (50, 40) (-1) ⟨1, (0, 0)⟩).pan.2)
          / (handleWheel (50, 40) (-1) ⟨1, (0, 0)⟩).zoom = (40 - 0) / 1 :=
  wheel_zoom_at_point ⟨1, (0, 0)⟩ (50, 40) (-1) (by norm_num) (by norm_num)

/-- C3 (amended): `graph-view.tsx` assigns palette colors by sorted index
— for groups `a`,`b` in either encounter order, `a` gets `palette[0]` and
`b` gets `palette[1]` — but `simple-drag-graph.tsx` assigns them by
first-encounter index, so for encounter order `[b, a]` it is `b` that gets
`palette[0]` and `a` gets `palette[1]`. -/
theorem color_assignment_by_component (nodes : List VNode) :
    ((groupsOf nodes = [("a"), ("b")] ∨ groupsOf nodes = [("b"), ("a")]) →
      lookupStr (graphViewColorMap nodes []) ("a") = some (("#4285F4")) ∧
      lookupStr (graphViewColorMap nodes []) ("b") = some (("#EA4335"))) ∧
    (groupsOf nodes = [("b"), ("a")] →
      lookupStr (simpleDragColorMap nodes []) ("b") = some (("#4285F4")) ∧
      lookupStr (simpleDragColorMap nodes []) ("a") = some (("#EA4335"))) := by
  constructor
  · intro h
    rcases h with h | h <;>
      · unfold graphViewColorMap
        rw [h]
        exact ⟨rfl, rfl⟩
  · intro h
    unfold simpleDragColorMap
    rw [h]
    exact ⟨rfl, rfl⟩

/-- C3 witness: two nodes whose groups are encountered in order
`[b, a]`. -/
theorem color_assignment_by_component_witness :
    ((groupsOf
        [⟨("n1"), ("n1"), none, none, none, some [(("group"), Json.str ("b"))]⟩,
         ⟨("n2"), ("n2"), none, none, none, some [(("group"), Json.str ("a"))]⟩]
          = [("a"), ("b")] ∨
      groupsOf
        [⟨("n1"), ("n1"), none, none, none, some [(("group"), Json.str ("b"))]⟩,
         ⟨("n2"), ("n2"), none, none, none, some [(("group"), Json.str ("a"))]⟩]
          = [("b"), ("a")]) →
      lookupStr (graphViewColorMap
        [⟨("n1"), ("n1"), none, none, none, some [(("group"), Json.str ("b"))]⟩,
         ⟨("n2"), ("n2"), none, none, none, some [(("group"), Json.str ("a"))]⟩] [])
        ("a") = some (("#4285F4")) ∧
      lookupStr (graphViewColorMap
        [⟨("n1"), ("n1"), none, none, none, some [(("group"), Json.str ("b"))]⟩,
         ⟨("n2"), ("n2"), none, none, none, some [(("group"), Json.str ("a"))]⟩] [])
        ("b") = some (("#EA4335"))) ∧
    (groupsOf
        [⟨("n1"), ("n1"), none, none, none, some [(("group"), Json.str ("b"))]⟩,
         ⟨("n2"), ("n2"), none, none, none, some [(("group"), Json.str ("a"))]⟩]
          = [("b"), ("a")] →
      lookupStr (simpleDragColorMap
        [⟨("n1"), ("n1"), none, none, none, some [(("group"), Json.str ("b"))]⟩,
         ⟨("n2"), ("n2"), none, none, none, some [(("group"), Json.str ("a"))]⟩] [])
        ("b") = some (("#4285F4")) ∧
      lookupStr (simpleDragColorMap
        [⟨("n1"), ("n1"), none, none, none, some [(("group"), Json.str ("b"))]⟩,
         ⟨("n2"), ("n2"), none, none, none, some [(("group"), Json.str ("a"))]⟩] [])
        ("a") = some (("#EA4335"))) :=
  color_assignment_by_component
    [⟨("n1"), ("n1"), none, none, none, some [(("group"), Json.str ("b"))]⟩,
     ⟨("n2"), ("n2"), none, none, none, some [(("group"), Json.str ("a"))]⟩]

/-- C3 counterexample: for groups encountered in order `[b, a]` with no
custom overrides, `simple-drag-graph.tsx` gives `a` the second palette
entry, not `palette[0]` as the claim asserts of both implementations. -/
theorem simple_drag_color_not_sorted :
    lookupStr (simpleDragColorMap
        [⟨("n1"), ("n1"), none, none, none, some [(("group"), Json.str ("b"))]⟩,
         ⟨("n2"), ("n2"), none, none, none, some [(("group"), Json.str ("a"))]⟩] [])
        ("a") = some (("#EA4335")) ∧
      defaultColors.getD 0 ("") = ("#4285F4") ∧
      (("#EA4335") : String) ≠ ("#4285F4") := by
  refine ⟨rfl, rfl, ?_⟩
  decide

theorem foldl_max_init (l : List ℕ) (a : ℕ) :
    l.foldl max a = max a (l.foldl max 0) := by
  induction l generalizing a with
  | nil => simp
  | cons x xs ih =>
    simp only [List.foldl_cons]
    rw [ih (max a x), ih (max 0 x)]
    simp [Nat.zero_max, max_assoc]

theorem maxInDeg_pos (nodes : List VNode) (edges : List VEdge) :
    1 ≤ maxInDeg nodes edges := by
  rw [maxInDeg, foldl_max_init]
  exact le_max_left _ _

theorem maxOutDeg_pos (nodes : List VNode) (edges : List VEdge) :
    1 ≤ maxOutDeg nodes edges := by
  rw [maxOutDeg, foldl_max_init]
  exact le_max_left _ _

/-- C8: in incoming (resp. outgoing) mode — in both canvases — every
node's radius is `5 + 15 * (degree / max(1, maxDegreeInGraph))` with the
degree counted in the named direction; a node of degree 0 gets radius 5,
and a node attaining the (floored) graph maximum gets radius 20. -/
theorem sizing_degree_formula (prop : Option String) (nodes : List VNode)
    (edges : List VEdge) (n : VNode) :
    (getNodeSize SizingMode.incoming prop nodes edges n
        = 5 + 15 * ((inDeg edges n.id : ℚ)
            / ((max 1 ((nodes.map fun m => inDeg edges m.id).foldl max 0) : ℕ) : ℚ)) ∧
      getNodeSize SizingMode.outgoing prop nodes edges n
        = 5 + 15 * ((outDeg edges n.id : ℚ)
            / ((max 1 ((nodes.map fun m => outDeg edges m.id).foldl max 0) : ℕ) : ℚ))) ∧
    (simpleDragGetNodeSize SizingMode.incoming nodes edges n
        = getNodeSize SizingMode.incoming prop nodes edges n ∧
      simpleDragGetNodeSize SizingMode.outgoing nodes edges n
        = getNodeSize SizingMode.outgoing prop nodes edges n) ∧
    (inDeg edges n.id = 0 →
      getNodeSize SizingMode.incoming prop nodes edges n = 5) ∧
    (inDeg edges n.id = maxInDeg nodes edges →
      getNodeSize SizingMode.incoming prop nodes edges n = 20) := by
  have hin : getNodeSize SizingMode.incoming prop nodes edges n
      = 5 + ((inDeg edges n.id : ℚ) / (maxInDeg nodes edges : ℚ)) * 15 := by
    simp [getNodeSize]
  have hout : getNodeSize SizingMode.outgoing prop nodes edges n
      = 5 + ((outDeg edges n.id : ℚ) / (maxOutDeg nodes edges : ℚ)) * 15 := by
    simp [getNodeSize]
  refine ⟨⟨?_, ?_⟩, ⟨?_, ?_⟩, ?_, ?_⟩
  · rw [hin, maxInDeg, foldl_max_init]
    ring
  · rw [hout, maxOutDeg, foldl_max_init]
    ring
  · rw [hin]
    simp [simpleDragGetNodeSize]
  · rw [hout]
    simp [simpleDragGetNodeSize]
  · intro h
    rw [hin, h]
    simp
  · intro h
    rw [hin, h]
    have hpos : ((maxInDeg nodes edges : ℕ) : ℚ) ≠ 0 := by
      have h1 := maxInDeg_pos nodes edges
      have h2 : maxInDeg nodes edges ≠ 0 := by omega
      exact_mod_cast h2
    rw [div_self hpos]
    norm_num

/-- C8 witness: nodes `A`, `B` with the single edge `A → B` in incoming
mode: `B` attains the maximum incoming degree and gets radius 20, `A` has
no incoming edge and gets radius 5. -/
theorem sizing_degree_formula_witness :
    (inDeg [⟨("A"), ("B"), none⟩] ("A") = 0 →
      getNodeSize SizingMode.incoming none
        [⟨("A"), ("A"), none, none, none, none⟩, ⟨("B"), ("B"), none, none, none, none⟩]
        [⟨("A"), ("B"), none⟩] ⟨("A"), ("A"), none, none, none, none⟩ = 5) ∧
    (inDeg [⟨("A"), ("B"), none⟩] ("B")
        = maxInDeg
            [⟨("A"), ("A"), none, none, none, none⟩, ⟨("B"), ("B"), none, none, none, none⟩]
            [⟨("A"), ("B"), none⟩] →
      getNodeSize SizingMode.incoming none
        [⟨("A"), ("A"), none, none, none, none⟩, ⟨("B"), ("B"), none, none, none, none⟩]
        [⟨("A"), ("B"), none⟩] ⟨("B"), ("B"), none, none, none, none⟩ = 20) ∧
    getNodeSize SizingMode.incoming none
        [⟨("A"), ("A"), none, none, none, none⟩, ⟨("B"), ("B"), none, none, none, none⟩]
        [⟨("A"), ("B"), none⟩] ⟨("A"), ("A"), none, none, none, none⟩ = 5 ∧
    getNodeSize SizingMode.incoming none
        [⟨("A"), ("A"), none, none, none, none⟩, ⟨("B"), ("B"), none, none, none, none⟩]
        [⟨("A"), ("B"), none⟩] ⟨("B"), ("B"), none, none, none, none⟩ = 20 := by
  have h5 := (sizing_degree_formula none
    [⟨("A"), ("A"), none, none, none, none⟩, ⟨("B"), ("B"), none, none, none, none⟩]
    [⟨("A"), ("B"), none⟩] ⟨("A"), ("A"), none, none, none, none⟩).2.2.1
  have h20 := (sizing_degree_formula none
    [⟨("A"), ("A"), none, none, none, none⟩, ⟨("B"), ("B"), none, none, none, none⟩]
    [⟨("A"), ("B"), none⟩] ⟨("B"), ("B"), none, none, none, none⟩).2.2.2
  exact ⟨fun _ => h5 (by rfl), fun _ => h20 (by rfl), h5 (by rfl), h20 (by rfl)⟩

/-- C9: an edge with a missing endpoint node, or whose resolved centers
coincide, is not drawn; otherwise the drawn segment runs from
`sourceCenter + d * sourceRadius` to `targetCenter - d * targetRadius`
with `d` the unit direction from source to target — so the division by the
center distance is only performed when that distance is nonzero. -/
theorem edge_trim_geometry (mode : SizingMode) (prop : Option String)
    (nodes : List VNode) (edges : List VEdge) (e : VEdge) :
    ((nodes.find? (fun n => n.id = e.fromId) = none ∨
        nodes.find? (fun n => n.id = e.toId) = none) →
      drawEdge mode prop nodes edges e = none) ∧
    (∀ s t, nodes.find? (fun n => n.id = e.fromId) = some s →
      nodes.find? (fun n => n.id = e.toId) = some t →
      ∀ sx sy tx ty : ℚ, s.x = some sx → s.y = some sy →
        t.x = some tx → t.y = some ty →
        ((tx = sx ∧ ty = sy) → drawEdge mode prop nodes edges e = none) ∧
        (¬(tx = sx ∧ ty = sy) →
          drawEdge mode prop nodes edges e =
            some ((((sx : ℚ) : ℝ)
                + (((tx : ℚ) : ℝ) - ((sx : ℚ) : ℝ))
                  / Real.sqrt ((((tx : ℚ) : ℝ) - ((sx : ℚ) : ℝ))
                      * (((tx : ℚ) : ℝ) - ((sx : ℚ) : ℝ))
                    + (((ty : ℚ) : ℝ) - ((sy : ℚ) : ℝ))
                      * (((ty : ℚ) : ℝ) - ((sy : ℚ) : ℝ)))
                  * ((getNodeSize mode prop nodes edges s : ℚ) : ℝ),
              ((sy : ℚ) : ℝ)
                + (((ty : ℚ) : ℝ) - ((sy : ℚ) : ℝ))
                  / Real.sqrt ((((tx : ℚ) : ℝ) - ((sx : ℚ) : ℝ))
                      * (((tx : ℚ) : ℝ) - ((sx : ℚ) : ℝ))
                    + (((ty : ℚ) : ℝ) - ((sy : ℚ) : ℝ))
                      * (((ty : ℚ) : ℝ) - ((sy : ℚ) : ℝ)))
                  * ((getNodeSize mode prop nodes edges s : ℚ) : ℝ)),
              (((tx : ℚ) : ℝ)
                - (((tx : ℚ) : ℝ) - ((sx : ℚ) : ℝ))
                  / Real.sqrt ((((tx : ℚ) : ℝ) - ((sx : ℚ) : ℝ))
                      * (((tx : ℚ) : ℝ) - ((sx : ℚ) : ℝ))
                    + (((ty : ℚ) : ℝ) - ((sy : ℚ) : ℝ))
                      * (((ty : ℚ) : ℝ) - ((sy : ℚ) : ℝ)))
                  * ((getNodeSize mode prop nodes edges t : ℚ) : ℝ),
              ((ty : ℚ) : ℝ)
                - (((ty : ℚ) : ℝ) - ((sy : ℚ) : ℝ))
                  / Real.sqrt ((((tx : ℚ) : ℝ) - ((sx : ℚ) : ℝ))
                      * (((tx : ℚ) : ℝ) - ((sx : ℚ) : ℝ))
                    + (((ty : ℚ) : ℝ) - ((sy : ℚ) : ℝ))
                      * (((ty : ℚ) : ℝ) - ((sy : ℚ) : ℝ)))
                  * ((getNodeSize mode prop nodes edges t : ℚ) : ℝ))))) := by
  constructor
  · intro h
    rcases h with h | h
    · cases h2 : nodes.find? (fun n => n.id = e.toId) <;>
        simp [drawEdge, h, h2]
    · cases h1 : nodes.find? (fun n => n.id = e.fromId) <;>
        simp [drawEdge, h, h1]
  · intro s t hs ht sx sy tx ty hsx hsy htx hty
    have hdE : drawEdge mode prop nodes edges e
        = calculateEdgeEndpoints mode prop nodes edges s t := by
      unfold drawEdge
      rw [hs, ht]
    constructor
    · rintro ⟨rfl, rfl⟩
      rw [hdE]
      unfold calculateEdgeEndpoints
      rw [hsx, hsy, htx, hty]
      simp
    · intro hne
      rw [hdE]
      unfold calculateEdgeEndpoints
      rw [hsx, hsy, htx, hty]
      have hd2 : (0 : ℝ) < (((tx : ℚ) : ℝ) - ((sx : ℚ) : ℝ))
            * (((tx : ℚ) : ℝ) - ((sx : ℚ) : ℝ))
          + (((ty : ℚ) : ℝ) - ((sy : ℚ) : ℝ))
            * (((ty : ℚ) : ℝ) - ((sy : ℚ) : ℝ)) := by
        rcases not_and_or.mp hne with h | h
        · have hx : ((tx : ℚ) : ℝ) - ((sx : ℚ) : ℝ) ≠ 0 := by
            rw [sub_ne_zero]
            exact_mod_cast h
          nlinarith [mul_self_pos.mpr hx,
            mul_self_nonneg (((ty : ℚ) : ℝ) - ((sy : ℚ) : ℝ))]
        · have hy : ((ty : ℚ) : ℝ) - ((sy : ℚ) : ℝ) ≠ 0 := by
            rw [sub_ne_zero]
            exact_mod_cast h
          nlinarith [mul_self_pos.mpr hy,
            mul_self_nonneg (((tx : ℚ) : ℝ) - ((sx : ℚ) : ℝ))]
      have hdist : Real.sqrt ((((tx : ℚ) : ℝ) - ((sx : ℚ) : ℝ))
            * (((tx : ℚ) : ℝ) - ((sx : ℚ) : ℝ))
          + (((ty : ℚ) : ℝ) - ((sy : ℚ) : ℝ))
            * (((ty : ℚ) : ℝ) - ((sy : ℚ) : ℝ))) ≠ 0 := by
        rw [Real.sqrt_ne_zero']
        exact hd2
      simp only [if_neg hdist]

theorem moveGV_during_drag (m : ℚ × ℚ) (s : GVState) (id : String)
    (hd : s.dragging = some id) (hp : s.isPanning = false) :
    handleMouseMoveGV m s =
      ({ s with
          nodes := s.nodes.map fun n =>
            if n.id = id then
              { n with
                x := some ((m.1 - s.pan.1) / s.zoom + s.dragOffset.1),
                y := some ((m.2 - s.pan.2) / s.zoom + s.dragOffset.2) }
            else n }, []) := by
  unfold handleMouseMoveGV
  rw [hp, hd]
  simp

theorem runMoves_spec (ms : List (ℚ × ℚ)) (s : GVState) (id : String)
    (hd : s.dragging = some id) (hp : s.isPanning = false) :
    (runMoves ms s).2 = [] ∧
      (runMoves ms s).1.dragging = some id ∧
      (runMoves ms s).1.isPanning = false ∧
      (runMoves ms s).1.edges = s.edges ∧
      (runMoves ms s).1.zoom = s.zoom ∧
      (runMoves ms s).1.pan = s.pan ∧
      (runMoves ms s).1.dragOffset = s.dragOffset ∧
      (runMoves ms s).1.nodes.map (fun n => n.id) = s.nodes.map (fun n => n.id) ∧
      ∀ hne : ms ≠ [], ∀ n ∈ (runMoves ms s).1.nodes, n.id = id →
        n.x = some (((ms.getLast hne).1 - s.pan.1) / s.zoom + s.dragOffset.1) ∧
        n.y = some (((ms.getLast hne).2 - s.pan.2) / s.zoom + s.dragOffset.2) := by
  induction ms generalizing s with
  | nil =>
    refine ⟨rfl, hd, hp, rfl, rfl, rfl, rfl, rfl, ?_⟩
    intro hne
    exact absurd rfl hne
  | cons m ms ih =>
    have hm := moveGV_during_drag m s id hd hp
    have hs_drag : (handleMouseMoveGV m s).1.dragging = some id := by
      rw [hm]
      exact hd
    have hs_panning : (handleMouseMoveGV m s).1.isPanning = false := by
      rw [hm]
      exact hp
    have hs_edges : (handleMouseMoveGV m s).1.edges = s.edges := by rw [hm]
    have hs_zoom : (handleMouseMoveGV m s).1.zoom = s.zoom := by rw [hm]
    have hs_pan : (handleMouseMoveGV m s).1.pan = s.pan := by rw [hm]
    have hs_off : (handleMouseMoveGV m s).1.dragOffset = s.dragOffset := by
      rw [hm]
    have hs_snd : (handleMouseMoveGV m s).2 = [] := by rw [hm]
    have hs_nodes : (handleMouseMoveGV m s).1.nodes
        = s.nodes.map (fun n =>
            if n.id = id then
              { n with
                x := some ((m.1 - s.pan.1) / s.zoom + s.dragOffset.1),
                y := some ((m.2 - s.pan.2) / s.zoom + s.dragOffset.2) }
            else n) := by
      rw [hm]
    have hfst : (runMoves (m :: ms) s).1
        = (runMoves ms (handleMouseMoveGV m s).1).1 := rfl
    have hsnd : (runMoves (m :: ms) s).2
        = (runMoves ms (handleMouseMoveGV m s).1).2 := by
      show (handleMouseMoveGV m s).2 ++ _ = _
      rw [hs_snd]
      simp
    obtain ⟨h2, hdrag, hpan, hedge, hzoom, hp2, hoff, hids, hpos⟩ :=
      ih (handleMouseMoveGV m s).1 hs_drag hs_panning
    refine ⟨by rw [hsnd]; exact h2, by rw [hfst]; exact hdrag,
      by rw [hfst]; exact hpan, by rw [hfst, hedge, hs_edges],
      by rw [hfst, hzoom, hs_zoom], by rw [hfst, hp2, hs_pan],
      by rw [hfst, hoff, hs_off], ?_, ?_⟩
    · rw [hfst, hids, hs_nodes]
      simp only [List.map_map]
      refine List.map_congr_left ?_
      intro n _
      by_cases hn : n.id = id <;> simp [hn]
    · intro hne n hn hnid
      rw [hfst] at hn
      by_cases hms : ms = []
      · subst hms
        simp only [runMoves] at hn
        rw [hs_nodes] at hn
        simp only [List.mem_map] at hn
        obtain ⟨n0, hn0, hfn⟩ := hn
        subst hfn
        by_cases h0 : n0.id = id
        · simp only [h0, if_true]
          exact ⟨rfl, rfl⟩
        · rw [if_neg h0] at hnid
          exact absurd hnid h0
      · have hlast : (m :: ms).getLast hne = ms.getLast hms :=
          List.getLast_cons hms
        rw [hlast]
        have hthis := hpos hms n hn hnid
        rw [hs_pan, hs_zoom, hs_off] at hthis
        exact hthis

/-- C6: from a live node drag, any sequence of pointer moves emits no
update notification (moves only update transient render state), and the
pointer-up transition back to Idle emits exactly one notification carrying
the full current node and edge collections, in which the dragged node
holds its final position — the world position of the last move plus the
captured drag offset. -/
theorem drag_commit_single_notification (s : GVState) (id : String)
    (ms : List (ℚ × ℚ)) (mlast : ℚ × ℚ)
    (hd : s.dragging = some id) (hp : s.isPanning = false)
    (hms : ms ≠ []) (hlast : ms.getLast hms = mlast) :
    (runMoves ms s).2 = [] ∧
      (handleMouseUpGV (runMoves ms s).1).2
        = [((runMoves ms s).1.nodes, (runMoves ms s).1.edges)] ∧
      (handleMouseUpGV (runMoves ms s).1).2.length = 1 ∧
      (runMoves ms s).1.edges = s.edges ∧
      (handleMouseUpGV (runMoves ms s).1).1.dragging = none ∧
      (handleMouseUpGV (runMoves ms s).1).1.isPanning = false ∧
      ∀ n ∈ (runMoves ms s).1.nodes, n.id = id →
        n.x = some ((mlast.1 - s.pan.1) / s.zoom + s.dragOffset.1) ∧
        n.y = some ((mlast.2 - s.pan.2) / s.zoom + s.dragOffset.2) := by
  obtain ⟨h2, hdrag, _, hedge, _, _, _, _, hpos⟩ := runMoves_spec ms s id hd hp
  have hup : (handleMouseUpGV (runMoves ms s).1).2
      = [((runMoves ms s).1.nodes, (runMoves ms s).1.edges)] := by
    unfold handleMouseUpGV
    rw [hdrag]
  refine ⟨h2, hup, by rw [hup]; rfl, hedge, rfl, rfl, ?_⟩
  intro n hn hnid
  have := hpos hms n hn hnid
  rw [hlast] at this
  exact this

/-- C6 witness: dragging node `A` (initially at world `(10, 10)`) through
moves to `(30, 30)` then `(50, 50)` at zoom 1, pan 0, offset 0: the moves
emit nothing, the release emits exactly one notification whose node list
carries `A` at `(50, 50)`. -/
theorem drag_commit_single_notification_witness :
    (runMoves [((30 : ℚ), (30 : ℚ)), (50, 50)]
        ⟨[⟨("A"), ("A"), some 10, some 10, none, none⟩], [], 1, (0, 0),
          some ("A"), (0, 0), false, (0, 0)⟩).2 = [] ∧
      (handleMouseUpGV (runMoves [((30 : ℚ), (30 : ℚ)), (50, 50)]
          ⟨[⟨("A"), ("A"), some 10, some 10, none, none⟩], [], 1, (0, 0),
            some ("A"), (0, 0), false, (0, 0)⟩).1).2
        = [((runMoves [((30 : ℚ), (30 : ℚ)), (50, 50)]
            ⟨[⟨("A"), ("A"), some 10, some 10, none, none⟩], [], 1, (0, 0),
              some ("A"), (0, 0), false, (0, 0)⟩).1.nodes,
           (runMoves [((30 : ℚ), (30 : ℚ)), (50, 50)]
            ⟨[⟨("A"), ("A"), some 10, some 10, none, none⟩], [], 1, (0, 0),
              some ("A"), (0, 0), false, (0, 0)⟩).1.edges)] ∧
      (handleMouseUpGV (runMoves [((30 : ℚ), (30 : ℚ)), (50, 50)]
          ⟨[⟨("A"), ("A"), some 10, some 10, none, none⟩], [], 1, (0, 0),
            some ("A"), (0, 0), false, (0, 0)⟩).1).2.length = 1 ∧
      (runMoves [((30 : ℚ), (30 : ℚ)), (50, 50)]
        ⟨[⟨("A"), ("A"), some 10, some 10, none, none⟩], [], 1, (0, 0),
          some ("A"), (0, 0), false, (0, 0)⟩).1.edges = [] ∧
      (handleMouseUpGV (runMoves [((30 : ℚ), (30 : ℚ)), (50, 50)]
          ⟨[⟨("A"), ("A"), some 10, some 10, none, none⟩], [], 1, (0, 0),
            some ("A"), (0, 0), false, (0, 0)⟩).1).1.dragging = none ∧
      (handleMouseUpGV (runMoves [((30 : ℚ), (30 : ℚ)), (50, 50)]
          ⟨[⟨("A"), ("A"), some 10, some 10, none, none⟩], [], 1, (0, 0),
            some ("A"), (0, 0), false, (0, 0)⟩).1).1.isPanning = false ∧
      ∀ n ∈ (runMoves [((30 : ℚ), (30 : ℚ)), (50, 50)]
          ⟨[⟨("A"), ("A"), some 10, some 10, none, none⟩], [], 1, (0, 0),
            some ("A"), (0, 0), false, (0, 0)⟩).1.nodes, n.id = ("A") →
        n.x = some ((((50 : ℚ), (50 : ℚ)).1 - (0, 0).1) / 1 + ((0 : ℚ), (0 : ℚ)).1) ∧
        n.y = some ((((50 : ℚ), (50 : ℚ)).2 - (0, 0).2) / 1 + ((0 : ℚ), (0 : ℚ)).2) :=
  drag_commit_single_notification
    ⟨[⟨("A"), ("A"), some 10, some 10, none, none⟩], [], 1, (0, 0),
      some ("A"), (0, 0), false, (0, 0)⟩
    ("A") [((30 : ℚ), (30 : ℚ)), (50, 50)] ((50 : ℚ), (50 : ℚ))
    rfl rfl (by simp) (by simp)

end GraphView
